import Mathlib

set_option maxRecDepth 8192

/-!
# Verification of the slot-game math backend

Shallow embedding of the repository's Python sources:

* `game_logic.py` — the seeded outcome generator (`BasketballSlotGame`):
  provably-fair uniform draws from SHA-256 over `server:client:nonce`,
  round resolution (miss / score / bonus trigger / jackpot), bonus
  purchase.
* `basketball_slot_game.py` — an earlier variant of the same class with a
  slightly different seeding check and `set_seeds` signature.
* `build_math_package.py` — the exact-EV 5000-outcome table builder and
  `normalize_probabilities`.
* `simulate_rtp.py` — the weighted-selection binary search used by the
  RTP simulator.

Machine integers are modelled as `Nat` with explicit `% 2^32` where the
source relies on 32-bit truncation (the SHA-256 core); probabilities,
rates and payouts are modelled as `ℚ` (every value the code actually
compares is an exact dyadic rational, so the branch structure is
preserved exactly).
-/

/-! ## SHA-256 (the digest primitive used by `generate_random`)

Pure implementation over byte lists (`Nat`s, each `< 256`), following
FIPS 180-4.  `hashlib.sha256(...).hexdigest()` is modelled by
`hexdigest (sha256 msg)` and `int(h[:8], 16)` by `intOfHex (·.take 8)`.
-/

/-- Truncate to 32 bits. -/
def w32 (x : Nat) : Nat := x % 4294967296

/-- 32-bit right rotation (argument assumed `< 2^32`). -/
def rotr (n x : Nat) : Nat := w32 ((x >>> n) ||| (x <<< (32 - n)))

def shaCh (x y z : Nat) : Nat := (x &&& y) ^^^ ((x ^^^ 4294967295) &&& z)

def shaMaj (x y z : Nat) : Nat := (x &&& y) ^^^ (x &&& z) ^^^ (y &&& z)

def bSig0 (x : Nat) : Nat := rotr 2 x ^^^ rotr 13 x ^^^ rotr 22 x

def bSig1 (x : Nat) : Nat := rotr 6 x ^^^ rotr 11 x ^^^ rotr 25 x

def sSig0 (x : Nat) : Nat := rotr 7 x ^^^ rotr 18 x ^^^ (x >>> 3)

def sSig1 (x : Nat) : Nat := rotr 17 x ^^^ rotr 19 x ^^^ (x >>> 10)

/-- The 64 SHA-256 round constants. -/
def shaK : List Nat :=
  [1116352408, 1899447441, 3049323471, 3921009573,
   961987163, 1508970993, 2453635748, 2870763221,
   3624381080, 310598401, 607225278, 1426881987,
   1925078388, 2162078206, 2614888103, 3248222580,
   3835390401, 4022224774, 264347078, 604807628,
   770255983, 1249150122, 1555081692, 1996064986,
   2554220882, 2821834349, 2952996808, 3210313671,
   3336571891, 3584528711, 113926993, 338241895,
   666307205, 773529912, 1294757372, 1396182291,
   1695183700, 1986661051, 2177026350, 2456956037,
   2730485921, 2820302411, 3259730800, 3345764771,
   3516065817, 3600352804, 4094571909, 275423344,
   430227734, 506948616, 659060556, 883997877,
   958139571, 1322822218, 1537002063, 1747873779,
   1955562222, 2024104815, 2227730452, 2361852424,
   2428436474, 2756734187, 3204031479, 3329325298]

/-- The SHA-256 initial hash value. -/
def shaH0 : List Nat :=
  [1779033703, 3144134277, 1013904242, 2773480762,
   1359893119, 2600822924, 528734635, 1541459225]

/-- Extend a 16-word message block to the 64-word schedule
(`fuel` counts the 48 remaining extension steps). -/
def schedExtend (w : List Nat) : Nat → List Nat
  | 0 => w
  | fuel + 1 =>
      let n := w.length
      let next := w32 (sSig1 (w.getD (n - 2) 0) + w.getD (n - 7) 0 +
                       sSig0 (w.getD (n - 15) 0) + w.getD (n - 16) 0)
      schedExtend (w ++ [next]) fuel

/-- One SHA-256 compression round: state `(a,b,c,d,e,f,g,h)`, input `(k, w)`. -/
def shaRound (st : Nat × Nat × Nat × Nat × Nat × Nat × Nat × Nat)
    (kw : Nat × Nat) : Nat × Nat × Nat × Nat × Nat × Nat × Nat × Nat :=
  match st, kw with
  | (a, b, c, d, e, f, g, h), (k, wi) =>
      let t1 := w32 (h + bSig1 e + shaCh e f g + k + wi)
      let t2 := w32 (bSig0 a + shaMaj a b c)
      (w32 (t1 + t2), a, b, c, w32 (d + t1), e, f, g)

/-- Compress one 16-word block into the running hash (8 words). -/
def compressBlock (h : List Nat) (block : List Nat) : List Nat :=
  let w := schedExtend block 48
  let init := (h.getD 0 0, h.getD 1 0, h.getD 2 0, h.getD 3 0,
               h.getD 4 0, h.getD 5 0, h.getD 6 0, h.getD 7 0)
  match (shaK.zip w).foldl shaRound init with
  | (a, b, c, d, e, f, g, hh) =>
      [w32 (h.getD 0 0 + a), w32 (h.getD 1 0 + b), w32 (h.getD 2 0 + c),
       w32 (h.getD 3 0 + d), w32 (h.getD 4 0 + e), w32 (h.getD 5 0 + f),
       w32 (h.getD 6 0 + g), w32 (h.getD 7 0 + hh)]

/-- Big-endian 8-byte encoding of a (bit-)length. -/
def be64 (n : Nat) : List Nat :=
  [(n >>> 56) % 256, (n >>> 48) % 256, (n >>> 40) % 256, (n >>> 32) % 256,
   (n >>> 24) % 256, (n >>> 16) % 256, (n >>> 8) % 256, n % 256]

/-- SHA-256 padding: append `0x80`, zero bytes to 56 mod 64, then the
64-bit big-endian bit length. -/
def padBytes (msg : List Nat) : List Nat :=
  let z := (119 - (msg.length % 64)) % 64
  msg ++ [128] ++ List.replicate z 0 ++ be64 (8 * msg.length)

/-- Split a byte list into 64-byte chunks (`fuel ≥ length` makes the
recursion structural; every step consumes at least one byte). -/
def chunks64Go : Nat → List Nat → List (List Nat)
  | 0, _ => []
  | _, [] => []
  | fuel + 1, a :: rest => ((a :: rest).take 64) :: chunks64Go fuel ((a :: rest).drop 64)

/-- Split a byte list into 64-byte chunks. -/
def chunks64 (l : List Nat) : List (List Nat) := chunks64Go l.length l

/-- Group bytes into big-endian 32-bit words. -/
def toWords : List Nat → List Nat
  | b0 :: b1 :: b2 :: b3 :: rest => (((b0 * 256 + b1) * 256 + b2) * 256 + b3) :: toWords rest
  | _ => []

/-- Big-endian bytes of one 32-bit word. -/
def wordBytes (w : Nat) : List Nat :=
  [(w >>> 24) % 256, (w >>> 16) % 256, (w >>> 8) % 256, w % 256]

/-- SHA-256 of a byte list, as the 32-byte digest. -/
def sha256 (msg : List Nat) : List Nat :=
  let blocks := chunks64 (padBytes msg)
  let h := blocks.foldl (fun h b => compressBlock h (toWords b)) shaH0
  h.flatMap wordBytes

/-- ASCII code of the lowercase hex digit for `n < 16`
(mirrors how `hexdigest` renders the digest). -/
def hexCode (n : Nat) : Nat := if n < 10 then 48 + n else 87 + n

/-- `hashlib`'s `hexdigest`: each digest byte as two lowercase hex
characters (modelled by their ASCII codes). -/
def hexdigest (bs : List Nat) : List Nat :=
  bs.flatMap fun b => [hexCode (b / 16), hexCode (b % 16)]

/-- Python `int(s, 16)` on a lowercase-hex string. -/
def intOfHex (cs : List Nat) : Nat :=
  cs.foldl (fun acc c => 16 * acc + (if 97 ≤ c then c - 87 else c - 48)) 0

example : sha256 [97, 58, 58, 48] =
    [0x64, 0x09, 0x0a, 0x83, 0x74, 0x90, 0x6f, 0xb5,
     0x13, 0x4e, 0x89, 0xf5, 0xcf, 0x56, 0x95, 0xe2,
     0xc3, 0xd1, 0x42, 0x7f, 0x1f, 0x4b, 0x4d, 0xd3,
     0x83, 0x00, 0xf6, 0x93, 0x60, 0x03, 0xfe, 0xb8] := by decide

/-! ## `game_logic.py` — `BasketballSlotGame`

Strings that go into the hash are modelled by their UTF-8 byte lists.
Every rate/multiplier the code compares or multiplies is an exact dyadic
float in Python except the decimal literals `0.40`, `0.05`, `0.001`;
their float values differ from the exact decimals by less than the
spacing `2^-32` of the possible draw values, so no draw `k/2^32` can
distinguish the float from the exact rational and the branch structure
is identical.  The module-level `random.choice` calls (a secondary RNG,
used only for bonus-tier multipliers and presentation strings) are
modelled by explicit oracle parameters `pickQ` / `pickS`. -/

inductive GameState where
  | idle | shooting | bonus | ended
deriving DecidableEq

inductive ShotOutcome where
  | miss | score | bonus_trigger | jackpot
deriving DecidableEq

structure GameConfig where
  bet_levels : List ℚ
  min_bet : ℚ := 1 / 10
  max_bet : ℚ := 1000
  base_win_rate : ℚ := 1 / 4
  bonus_win_rate : ℚ := 2 / 5
  regular_multiplier : ℚ := 10
  bonus_multipliers : List ℚ := [15, 25]
  jackpot_multiplier : ℚ := 5000
  bonus_trigger_rate : ℚ := 1 / 20
  bonus_free_shots : Nat := 5
  buy_bonus_multiplier : ℚ := 100
  jackpot_rate : ℚ := 1 / 1000
deriving DecidableEq

/-- The configuration built in the module's `__main__` block (all other
fields at their dataclass defaults). -/
def defaultConfig : GameConfig :=
  { bet_levels := [1/10, 1/4, 1/2, 1, 2, 5, 10, 25, 50, 100, 250, 500, 1000] }

structure RoundResult where
  outcome : ShotOutcome
  multiplier : ℚ
  winnings : ℚ
  is_bonus : Bool
  is_jackpot : Bool
  free_spins_remaining : Nat
  message : String
  animation_type : String
  rtp_contribution : ℚ
deriving DecidableEq

/-- The three attributes `set_seeds` introduces on the object.  `seeds =
none` models the state before `set_seeds` was ever called (the
attributes do not exist, so `hasattr(self, 'server_seed')` is false). -/
structure SeedState where
  server_seed : List Nat
  client_seed : List Nat
  nonce : Nat
deriving DecidableEq

structure GLState where
  config : GameConfig
  state : GameState := .idle
  free_spins_remaining : Nat := 0
  seeds : Option SeedState := none
deriving DecidableEq

namespace GameLogic

/-- UTF-8 bytes of Python `str(nonce)` for a non-negative nonce. -/
def decBytes (n : Nat) : List Nat := (Nat.toDigits 10 n).map Char.toNat

/-- UTF-8 bytes of `f"{server_seed}:{client_seed}:{nonce}"` (58 = colon). -/
def combinedSeed (sd : SeedState) : List Nat :=
  sd.server_seed ++ [58] ++ sd.client_seed ++ [58] ++ decBytes sd.nonce

def set_seeds (s : GLState) (server_seed : List Nat)
    (client_seed : List Nat := []) (nonce : Nat := 0) : GLState :=
  { s with seeds := some ⟨server_seed, client_seed, nonce⟩ }

/-- `generate_random`: raises when `server_seed` was never set; otherwise
hashes `server:client:nonce`, increments the nonce, and returns
`int(hexdigest[:8], 16) / 16**8`. -/
def generate_random (s : GLState) : Except String ℚ × GLState :=
  match s.seeds with
  | none => (.error "Seeds not set", s)
  | some sd =>
      let s' := { s with seeds := some { sd with nonce := sd.nonce + 1 } }
      let hash_result := hexdigest (sha256 (combinedSeed sd))
      (.ok ((intOfHex (hash_result.take 8) : ℚ) / (16 ^ 8 : ℚ)), s')

def winMessages : List String := ["SWISH!", "NICE SHOT!", "PERFECT!", "AMAZING!"]

def lossMessages : List String :=
  ["So close!", "Next time!", "You almost had it!", "Keep trying!", "Almost there!"]

def create_bonus_trigger_result (s : GLState) (bet_amount : ℚ) :
    RoundResult × GLState :=
  let s' := { s with free_spins_remaining := s.config.bonus_free_shots }
  ({ outcome := .bonus_trigger
     multiplier := s.config.regular_multiplier
     winnings := bet_amount * s.config.regular_multiplier
     is_bonus := true
     is_jackpot := false
     free_spins_remaining := s'.free_spins_remaining
     message := "BONUS! 5 FREE SHOTS!"
     animation_type := "score"
     rtp_contribution := s.config.regular_multiplier * s.config.bonus_trigger_rate }, s')

def create_win_result (pickQ : List ℚ → ℚ) (pickS : List String → String)
    (s : GLState) (bet_amount random_value : ℚ) : RoundResult × GLState :=
  let res :=
    if random_value < s.config.jackpot_rate then
      (s.config.jackpot_multiplier, ShotOutcome.jackpot, "JACKPOT!", true)
    else if s.free_spins_remaining > 0 then
      (pickQ s.config.bonus_multipliers, ShotOutcome.score, pickS winMessages, false)
    else
      (s.config.regular_multiplier, ShotOutcome.score, pickS winMessages, false)
  let s' := if s.free_spins_remaining > 0 then
      { s with free_spins_remaining := s.free_spins_remaining - 1 } else s
  ({ outcome := res.2.1
     multiplier := res.1
     winnings := bet_amount * res.1
     is_bonus := false
     is_jackpot := res.2.2.2
     free_spins_remaining := s'.free_spins_remaining
     message := res.2.2.1
     animation_type := "score"
     rtp_contribution := res.1 * (if s'.free_spins_remaining > 0 then
       s.config.bonus_win_rate else s.config.base_win_rate) }, s')

def create_loss_result (pickS : List String → String) (s : GLState)
    (_bet_amount : ℚ) : RoundResult × GLState :=
  let s' := if s.free_spins_remaining > 0 then
      { s with free_spins_remaining := s.free_spins_remaining - 1 } else s
  ({ outcome := .miss
     multiplier := 0
     winnings := 0
     is_bonus := false
     is_jackpot := false
     free_spins_remaining := s'.free_spins_remaining
     message := pickS lossMessages
     animation_type := pickS ["bounce_backboard", "bounce_rim"]
     rtp_contribution := 0 }, s')

def determine_outcome (pickQ : List ℚ → ℚ) (pickS : List String → String)
    (s : GLState) (bet_amount : ℚ) (_power_level : Nat := 50) :
    Except String RoundResult × GLState :=
  match generate_random s with
  | (.error e, s₁) => (.error e, s₁)
  | (.ok random_value, s₁) =>
      if s₁.free_spins_remaining = 0 ∧ random_value < s₁.config.bonus_trigger_rate then
        let (r, s₂) := create_bonus_trigger_result s₁ bet_amount
        (.ok r, s₂)
      else
        let win_rate := if s₁.free_spins_remaining > 0 then
            s₁.config.bonus_win_rate else s₁.config.base_win_rate
        if random_value < win_rate then
          let (r, s₂) := create_win_result pickQ pickS s₁ bet_amount random_value
          (.ok r, s₂)
        else
          let (r, s₂) := create_loss_result pickS s₁ bet_amount
          (.ok r, s₂)

def buy_bonus (s : GLState) (bet_amount : ℚ) :
    Except String RoundResult × GLState :=
  if s.free_spins_remaining > 0 then
    (.error "Bonus already active", s)
  else
    let _cost := bet_amount * s.config.buy_bonus_multiplier
    let s' := { s with free_spins_remaining := s.config.bonus_free_shots }
    (.ok { outcome := .bonus_trigger
           multiplier := 0
           winnings := 0
           is_bonus := true
           is_jackpot := false
           free_spins_remaining := s'.free_spins_remaining
           message := "BONUS PURCHASED! 5 FREE SHOTS!"
           animation_type := "score"
           rtp_contribution := 0 }, s')

end GameLogic

/-! ## `basketball_slot_game.py` — the earlier variant of the class

Differences that matter here: `__init__` sets `server_seed = None`;
`set_seeds` has no nonce parameter and always resets `nonce` to 0; and
`generate_random` checks `if not self.server_seed`, which rejects both
an unset (`None`) and an *empty* server seed. -/

structure BSGState where
  config : GameConfig
  free_spins_remaining : Nat := 0
  server_seed : Option (List Nat) := none
  client_seed : List Nat := []
  nonce : Nat := 0
deriving DecidableEq

namespace BSG

def set_seeds (s : BSGState) (server_seed : List Nat)
    (client_seed : Option (List Nat) := none) : BSGState :=
  { s with server_seed := some server_seed
           client_seed := client_seed.getD []
           nonce := 0 }

def generate_random (s : BSGState) : Except String ℚ × BSGState :=
  match s.server_seed with
  | none => (.error "Server seed not set", s)
  | some srv =>
      if srv = [] then (.error "Server seed not set", s)
      else
        let s' := { s with nonce := s.nonce + 1 }
        let combined : List Nat := srv ++ [58] ++ s.client_seed ++ [58] ++
          GameLogic.decBytes s.nonce
        let hash_result := hexdigest (sha256 combined)
        (.ok ((intOfHex (hash_result.take 8) : ℚ) / (16 ^ 8 : ℚ)), s')

end BSG

/-! ## Helper lemmas about the hex round-trip and digest bytes -/

/-- Big-endian value of a byte list (the "first 32 bits" reading when
applied to the first four digest bytes). -/
def be32 (l : List Nat) : Nat := l.foldl (fun a b => 256 * a + b) 0

theorem hexVal_hexCode (d : Nat) :
    (if 97 ≤ hexCode d then hexCode d - 87 else hexCode d - 48) = d := by
  unfold hexCode; split_ifs <;> omega

/-- Parsing the first eight hex characters of a hexdigest recovers the
big-endian value of the first four bytes. -/
theorem intOfHex_hexdigest_take8 (bs : List Nat) :
    intOfHex ((hexdigest bs).take 8) = be32 (bs.take 4) := by
  match bs with
  | [] => rfl
  | [b0] =>
      simp only [hexdigest, intOfHex, be32, List.flatMap_cons, List.flatMap_nil,
        List.take, List.foldl, List.append_nil, List.nil_append, List.cons_append,
        hexVal_hexCode]
      omega
  | [b0, b1] =>
      simp only [hexdigest, intOfHex, be32, List.flatMap_cons, List.flatMap_nil,
        List.take, List.foldl, List.append_nil, List.nil_append, List.cons_append,
        hexVal_hexCode]
      omega
  | [b0, b1, b2] =>
      simp only [hexdigest, intOfHex, be32, List.flatMap_cons, List.flatMap_nil,
        List.take, List.foldl, List.append_nil, List.nil_append, List.cons_append,
        hexVal_hexCode]
      omega
  | b0 :: b1 :: b2 :: b3 :: rest =>
      simp only [hexdigest, intOfHex, be32, List.flatMap_cons, List.take_succ_cons,
        List.take_zero, List.foldl, List.cons_append, List.nil_append,
        hexVal_hexCode]
      omega

theorem sha256_bytes_lt (msg : List Nat) : ∀ b ∈ sha256 msg, b < 256 := by
  intro b hb
  unfold sha256 at hb
  rw [List.mem_flatMap] at hb
  obtain ⟨w, -, hw⟩ := hb
  unfold wordBytes at hw
  simp only [List.mem_cons, List.not_mem_nil, or_false] at hw
  rcases hw with h | h | h | h <;> subst h <;> exact Nat.mod_lt _ (by norm_num)

theorem foldl_be_bound (l : List Nat) :
    ∀ acc : Nat, (∀ b ∈ l, b < 256) →
      l.foldl (fun a b => 256 * a + b) acc < 256 ^ l.length * (acc + 1) := by
  induction l with
  | nil => intro acc _; simpa using Nat.lt_succ_self acc
  | cons a t ih =>
      intro acc h
      have ha : a < 256 := h a (List.mem_cons_self a t)
      have ht : ∀ b ∈ t, b < 256 := fun b hb => h b (List.mem_cons_of_mem a hb)
      calc (a :: t).foldl (fun a b => 256 * a + b) acc
          = t.foldl (fun a b => 256 * a + b) (256 * acc + a) := rfl
        _ < 256 ^ t.length * (256 * acc + a + 1) := ih _ ht
        _ ≤ 256 ^ t.length * (256 * (acc + 1)) := by
              apply Nat.mul_le_mul_left; omega
        _ = 256 ^ (a :: t).length * (acc + 1) := by
              simp [List.length_cons, pow_succ]; ring

theorem be32_take4_lt (l : List Nat) (h : ∀ b ∈ l, b < 256) :
    be32 (l.take 4) < 4294967296 := by
  have hlt := foldl_be_bound (l.take 4) 0
    (fun b hb => h b (List.mem_of_mem_take hb))
  have hlen : (l.take 4).length ≤ 4 := by
    simp [List.length_take]
  have hpow : (256 : ℕ) ^ (l.take 4).length ≤ 256 ^ 4 :=
    Nat.pow_le_pow_right (by norm_num) hlen
  unfold be32
  calc (l.take 4).foldl (fun a b => 256 * a + b) 0
      < 256 ^ (l.take 4).length * (0 + 1) := hlt
    _ ≤ 256 ^ 4 := by simpa using hpow
    _ ≤ 4294967296 := by norm_num

deriving instance DecidableEq for Except

/-- Evaluation helper: a seeded draw returns the parsed 32-bit hash
prefix over `2^32` and bumps the nonce (the `Nat` hash value is supplied
separately so concrete instances can be checked by `decide` without
reducing `ℚ` field instances in the kernel). -/
theorem generate_random_eval (s : GLState) (sd : SeedState) (n : Nat)
    (h : s.seeds = some sd)
    (hn : intOfHex ((hexdigest (sha256 (GameLogic.combinedSeed sd))).take 8) = n) :
    GameLogic.generate_random s =
      (.ok ((n : ℚ) / 4294967296),
       { s with seeds := some { sd with nonce := sd.nonce + 1 } }) := by
  unfold GameLogic.generate_random
  rw [h]
  simp only [hn]
  norm_num

/-! ## C2 — failing on an unseeded draw -/

/-- C2 is false as stated for `game_logic.py`: that file only checks
`hasattr(self, 'server_seed')`, so a server seed that was *set to the
empty string* still produces a draw.  Here `seeds = some ⟨[], [], 0⟩`
models `set_seeds("")`, and `generate_random` succeeds (hashing the
string `"::0"`). -/
theorem C2_counterexample :
    (GameLogic.generate_random
        { config := defaultConfig, free_spins_remaining := 0,
          seeds := some ⟨[], [], 0⟩ }).1 =
      .ok ((4275736605 : ℚ) / 4294967296) := by
  rw [generate_random_eval _ ⟨[], [], 0⟩ 4275736605 rfl (by decide)]
  norm_num

/-- C2 (amended): a draw fails with the unseeded-state error whenever the
server seed was never set; in `basketball_slot_game.py` it also fails
when the server seed is set but empty.  (In `game_logic.py` an
empty-but-set server seed draws successfully.) -/
theorem C2_amended_unseeded_fails :
    (∀ s : GLState, s.seeds = none →
        GameLogic.generate_random s = (.error "Seeds not set", s)) ∧
    (∀ s : BSGState, s.server_seed = none ∨ s.server_seed = some [] →
        BSG.generate_random s = (.error "Server seed not set", s)) := by
  constructor
  · intro s h
    unfold GameLogic.generate_random
    rw [h]
  · intro s h
    rcases h with h | h <;> unfold BSG.generate_random <;> rw [h] <;> simp

theorem C2_witness :
    GameLogic.generate_random { config := defaultConfig, seeds := none } =
        (.error "Seeds not set", { config := defaultConfig, seeds := none }) ∧
    BSG.generate_random { config := defaultConfig, server_seed := some [] } =
        (.error "Server seed not set",
         { config := defaultConfig, server_seed := some [] }) :=
  ⟨C2_amended_unseeded_fails.1 _ rfl, C2_amended_unseeded_fails.2 _ (Or.inr rfl)⟩

/-! ## C8 — what `set_seeds` actually resets -/

/-- C8 is false as stated: neither file's `set_seeds` touches
`free_spins_remaining`.  Starting from a state with 2 free spins left,
`set_seeds` leaves them at 2 (the claim demands 0), in both variants. -/
theorem C8_counterexample :
    ((GameLogic.set_seeds
        { config := defaultConfig, free_spins_remaining := 2, seeds := none }
        [97]).free_spins_remaining = 2 ∧
     (BSG.set_seeds
        { config := defaultConfig, free_spins_remaining := 2 }
        [97]).free_spins_remaining = 2) ∧ (2 : Nat) ≠ 0 := by decide

/-- C8 (amended): `set_seeds` installs exactly the given seeds — in
`game_logic.py` the counter becomes the `nonce` argument (0 by default),
in `basketball_slot_game.py` it is always reset to 0 — and
`free_spins_remaining` is left unchanged in both. -/
theorem C8_set_seeds_behavior (s : GLState) (b : BSGState)
    (server client : List Nat) (nonce : Nat) :
    GameLogic.set_seeds s server client nonce =
      { s with seeds := some ⟨server, client, nonce⟩ } ∧
    GameLogic.set_seeds s server =
      { s with seeds := some ⟨server, [], 0⟩ } ∧
    (GameLogic.set_seeds s server client nonce).free_spins_remaining =
      s.free_spins_remaining ∧
    BSG.set_seeds b server (some client) =
      { b with server_seed := some server, client_seed := client, nonce := 0 } ∧
    (BSG.set_seeds b server (some client)).free_spins_remaining =
      b.free_spins_remaining :=
  ⟨rfl, rfl, rfl, rfl, rfl⟩

/-! ## C3 — the draw is a pure, reproducible function of the seed triple -/

/-- C3: for seeded states the draw value depends only on the triple
`(server_seed, client_seed, nonce)`; it equals the big-endian value of
the first 32 bits (first four bytes) of the SHA-256 digest of
`"server:client:nonce"` divided by `2^32`, and lies in `[0, 1)`. -/
theorem C3_provably_fair (s s' : GLState) (sd : SeedState)
    (h : s.seeds = some sd) (h' : s'.seeds = some sd) :
    (GameLogic.generate_random s).1 = (GameLogic.generate_random s').1 ∧
    (GameLogic.generate_random s).1 =
      .ok ((be32 ((sha256 (GameLogic.combinedSeed sd)).take 4) : ℚ) / 2 ^ 32) ∧
    ∀ q : ℚ, (GameLogic.generate_random s).1 = .ok q → 0 ≤ q ∧ q < 1 := by
  have key : ∀ t : GLState, t.seeds = some sd →
      (GameLogic.generate_random t).1 =
        .ok ((be32 ((sha256 (GameLogic.combinedSeed sd)).take 4) : ℚ) / 2 ^ 32) := by
    intro t ht
    unfold GameLogic.generate_random
    rw [ht]
    simp only [intOfHex_hexdigest_take8]
    norm_num
  refine ⟨(key s h).trans (key s' h').symm, key s h, ?_⟩
  intro q hq
  rw [key s h] at hq
  have hqv : q = ((be32 ((sha256 (GameLogic.combinedSeed sd)).take 4) : ℚ) / 2 ^ 32) := by
    injection hq with hq'
    exact hq'.symm
  subst hqv
  have hb : be32 ((sha256 (GameLogic.combinedSeed sd)).take 4) < 4294967296 :=
    be32_take4_lt _ (sha256_bytes_lt _)
  constructor
  · positivity
  · rw [div_lt_one (by positivity)]
    have : ((be32 ((sha256 (GameLogic.combinedSeed sd)).take 4) : ℕ) : ℚ) <
        ((4294967296 : ℕ) : ℚ) := by exact_mod_cast hb
    calc ((be32 ((sha256 (GameLogic.combinedSeed sd)).take 4) : ℕ) : ℚ)
        < ((4294967296 : ℕ) : ℚ) := this
      _ = 2 ^ 32 := by norm_num

theorem C3_witness :
    (GameLogic.generate_random
        { config := defaultConfig, seeds := some ⟨[97], [], 0⟩ }).1 =
      .ok ((be32 ((sha256 (GameLogic.combinedSeed ⟨[97], [], 0⟩)).take 4) : ℚ) / 2 ^ 32) :=
  (C3_provably_fair
    { config := defaultConfig, seeds := some ⟨[97], [], 0⟩ }
    { config := defaultConfig, seeds := some ⟨[97], [], 0⟩ }
    ⟨[97], [], 0⟩ rfl rfl).2.1

/-! ## C4 — one draw per resolved round; `buy_bonus` never draws -/

/-- C4: a resolved round consumes exactly one uniform draw — the nonce
after `determine_outcome` is the starting nonce plus one (seeds
otherwise unchanged) — while `buy_bonus` leaves the seed state (hence
the counter) untouched in both its outcomes. -/
theorem C4_counter_increment (pickQ : List ℚ → ℚ) (pickS : List String → String)
    (s : GLState) (sd : SeedState) (bet : ℚ)
    (h : s.seeds = some sd) :
    (GameLogic.determine_outcome pickQ pickS s bet).2.seeds =
      some ⟨sd.server_seed, sd.client_seed, sd.nonce + 1⟩ ∧
    ∀ (s' : GLState) (bet' : ℚ),
      (GameLogic.buy_bonus s' bet').2.seeds = s'.seeds := by
  constructor
  · have heval := generate_random_eval s sd _ h rfl
    unfold GameLogic.determine_outcome
    rw [heval]
    simp only [GameLogic.create_bonus_trigger_result, GameLogic.create_win_result,
      GameLogic.create_loss_result]
    split
    · rfl
    · split
      · split <;> rfl
      · split <;> rfl
  · intro s' bet'
    unfold GameLogic.buy_bonus
    split <;> rfl

theorem C4_witness :
    (GameLogic.determine_outcome (fun l => l.headD 0) (fun l => l.headD "")
        { config := defaultConfig, seeds := some ⟨[97], [], 0⟩ } 1).2.seeds =
      some ⟨[97], [], 1⟩ :=
  (C4_counter_increment (fun l => l.headD 0) (fun l => l.headD "")
    { config := defaultConfig, seeds := some ⟨[97], [], 0⟩ } ⟨[97], [], 0⟩ 1 rfl).1

/-! ## C5 — the `buy_bonus` contract -/

/-- C5: with free spins remaining, `buy_bonus` fails with the
bonus-already-active error and mutates nothing; with none remaining it
sets `free_spins_remaining` to `bonus_free_shots` without touching the
seed state (no draw) and returns a result with multiplier 0 and
winnings 0. -/
theorem C5_buy_bonus_contract (s : GLState) (bet : ℚ) :
    (s.free_spins_remaining > 0 →
      GameLogic.buy_bonus s bet = (.error "Bonus already active", s)) ∧
    (s.free_spins_remaining = 0 →
      GameLogic.buy_bonus s bet =
        (.ok { outcome := .bonus_trigger, multiplier := 0, winnings := 0,
               is_bonus := true, is_jackpot := false,
               free_spins_remaining := s.config.bonus_free_shots,
               message := "BONUS PURCHASED! 5 FREE SHOTS!",
               animation_type := "score", rtp_contribution := 0 },
         { s with free_spins_remaining := s.config.bonus_free_shots })) := by
  constructor
  · intro hpos
    unfold GameLogic.buy_bonus
    rw [if_pos hpos]
  · intro hz
    unfold GameLogic.buy_bonus
    rw [if_neg (by omega)]

theorem C5_witness :
    GameLogic.buy_bonus
        { config := defaultConfig, free_spins_remaining := 2, seeds := none } 1 =
      (.error "Bonus already active",
       { config := defaultConfig, free_spins_remaining := 2, seeds := none }) ∧
    GameLogic.buy_bonus
        { config := defaultConfig, free_spins_remaining := 0, seeds := none } 1 =
      (.ok { outcome := .bonus_trigger, multiplier := 0, winnings := 0,
             is_bonus := true, is_jackpot := false, free_spins_remaining := 5,
             message := "BONUS PURCHASED! 5 FREE SHOTS!",
             animation_type := "score", rtp_contribution := 0 },
       { config := defaultConfig, free_spins_remaining := 5, seeds := none }) :=
  ⟨(C5_buy_bonus_contract _ 1).1 (by norm_num),
   (C5_buy_bonus_contract _ 1).2 rfl⟩

/-! ## C6 — the bonus-trigger branch -/

/-- C6: with no free spins left and a draw below the trigger rate, the
round is a BonusTrigger paying `bet * regular_multiplier`, free spins
are set to `bonus_free_shots` (5 in the default configuration) with no
decrement, and the nonce advances only by the single draw already
consumed (the final seed state is the post-draw one). -/
theorem C6_bonus_trigger (pickQ : List ℚ → ℚ) (pickS : List String → String)
    (s : GLState) (r : ℚ) (s₁ : GLState) (bet : ℚ)
    (hfs : s.free_spins_remaining = 0)
    (hdraw : GameLogic.generate_random s = (.ok r, s₁))
    (hr : r < s.config.bonus_trigger_rate) :
    GameLogic.determine_outcome pickQ pickS s bet =
      (.ok { outcome := .bonus_trigger,
             multiplier := s.config.regular_multiplier,
             winnings := bet * s.config.regular_multiplier,
             is_bonus := true, is_jackpot := false,
             free_spins_remaining := s.config.bonus_free_shots,
             message := "BONUS! 5 FREE SHOTS!", animation_type := "score",
             rtp_contribution := s.config.regular_multiplier * s.config.bonus_trigger_rate },
       { s₁ with free_spins_remaining := s.config.bonus_free_shots }) ∧
    s₁.seeds = (s.seeds.map fun sd => ⟨sd.server_seed, sd.client_seed, sd.nonce + 1⟩) ∧
    defaultConfig.bonus_free_shots = 5 := by
  obtain ⟨sd, hs⟩ : ∃ sd, s.seeds = some sd := by
    cases hseeds : s.seeds with
    | none =>
        exfalso
        unfold GameLogic.generate_random at hdraw
        rw [hseeds] at hdraw
        simp at hdraw
    | some sd => exact ⟨sd, rfl⟩
  have heval := generate_random_eval s sd _ hs rfl
  rw [heval] at hdraw
  injection hdraw with h1 h2
  injection h1 with hv
  subst hv
  subst h2
  refine ⟨?_, by rw [hs]; rfl, rfl⟩
  unfold GameLogic.determine_outcome
  simp only [heval]
  split
  · simp [GameLogic.create_bonus_trigger_result]
  · next hneg => exact absurd ⟨hfs, hr⟩ hneg

theorem C6_witness :
    GameLogic.determine_outcome (fun l => l.headD 0) (fun l => l.headD "")
        { config := { bet_levels := [1], bonus_trigger_rate := 1/2 },
          free_spins_remaining := 0, seeds := some ⟨[97], [], 0⟩ } 1 =
      (.ok { outcome := .bonus_trigger, multiplier := 10, winnings := 1 * 10,
             is_bonus := true, is_jackpot := false, free_spins_remaining := 5,
             message := "BONUS! 5 FREE SHOTS!", animation_type := "score",
             rtp_contribution := 10 * (1/2) },
       { config := { bet_levels := [1], bonus_trigger_rate := 1/2 },
         free_spins_remaining := 5, seeds := some ⟨[97], [], 1⟩ }) :=
  (C6_bonus_trigger (fun l => l.headD 0) (fun l => l.headD "")
    { config := { bet_levels := [1], bonus_trigger_rate := 1/2 },
      free_spins_remaining := 0, seeds := some ⟨[97], [], 0⟩ }
    ((1678314115 : ℚ) / 4294967296)
    { config := { bet_levels := [1], bonus_trigger_rate := 1/2 },
      free_spins_remaining := 0, seeds := some ⟨[97], [], 1⟩ } 1
    rfl
    (by rw [generate_random_eval _ ⟨[97], [], 0⟩ 1678314115 rfl (by decide)]; norm_num)
    (by norm_num)).1

/-! ## C7 — jackpot nesting and free-spin decrement -/

theorem create_win_result_jackpot (pickQ : List ℚ → ℚ) (pickS : List String → String)
    (s : GLState) (bet r : ℚ) (hj : r < s.config.jackpot_rate) :
    (GameLogic.create_win_result pickQ pickS s bet r).1.outcome = .jackpot ∧
    (GameLogic.create_win_result pickQ pickS s bet r).1.multiplier =
      s.config.jackpot_multiplier := by
  unfold GameLogic.create_win_result
  rw [if_pos hj]
  exact ⟨rfl, rfl⟩

theorem create_win_result_state (pickQ : List ℚ → ℚ) (pickS : List String → String)
    (s : GLState) (bet r : ℚ) :
    (GameLogic.create_win_result pickQ pickS s bet r).2 =
      { s with free_spins_remaining := s.free_spins_remaining - 1 } := by
  unfold GameLogic.create_win_result
  dsimp only
  split
  · rfl
  · next hng =>
      have hz : s.free_spins_remaining - 1 = s.free_spins_remaining := by omega
      rw [hz]

theorem create_loss_result_state (pickS : List String → String)
    (s : GLState) (bet : ℚ) :
    (GameLogic.create_loss_result pickS s bet).2 =
      { s with free_spins_remaining := s.free_spins_remaining - 1 } := by
  unfold GameLogic.create_loss_result
  dsimp only
  split
  · rfl
  · next hng =>
      have hz : s.free_spins_remaining - 1 = s.free_spins_remaining := by omega
      rw [hz]

/-- Branch-level evaluation of `determine_outcome` on a seeded state:
one draw is consumed (nonce bumped in `s₁`) and the three branches
dispatch on the trigger condition and the win rate in effect. -/
theorem determine_outcome_eval (pickQ : List ℚ → ℚ) (pickS : List String → String)
    (s : GLState) (sd : SeedState) (bet : ℚ) (h : s.seeds = some sd) :
    GameLogic.determine_outcome pickQ pickS s bet =
      (let r : ℚ :=
        (intOfHex ((hexdigest (sha256 (GameLogic.combinedSeed sd))).take 8) : ℚ)
          / 4294967296
       let s₁ : GLState := { s with seeds := some { sd with nonce := sd.nonce + 1 } }
       if s.free_spins_remaining = 0 ∧ r < s.config.bonus_trigger_rate then
         (.ok (GameLogic.create_bonus_trigger_result s₁ bet).1,
          (GameLogic.create_bonus_trigger_result s₁ bet).2)
       else if r < (if s.free_spins_remaining > 0 then s.config.bonus_win_rate
                    else s.config.base_win_rate) then
         (.ok (GameLogic.create_win_result pickQ pickS s₁ bet r).1,
          (GameLogic.create_win_result pickQ pickS s₁ bet r).2)
       else
         (.ok (GameLogic.create_loss_result pickS s₁ bet).1,
          (GameLogic.create_loss_result pickS s₁ bet).2)) := by
  have heval := generate_random_eval s sd _ h rfl
  unfold GameLogic.determine_outcome
  rw [heval]

/-- C7: the jackpot check reuses the round's single draw and is nested
strictly inside the win branch — when the draw qualifies as a win and
also lies below `jackpot_rate`, the round is a Jackpot at
`jackpot_multiplier`; and whenever free spins are positive they are
decremented by exactly one in both the win and the miss branch but
never in the trigger branch (where they are set to `bonus_free_shots`). -/
theorem C7_jackpot_nested (pickQ : List ℚ → ℚ) (pickS : List String → String)
    (s : GLState) (r : ℚ) (s₁ : GLState) (bet : ℚ)
    (hdraw : GameLogic.generate_random s = (.ok r, s₁)) :
    (¬(s.free_spins_remaining = 0 ∧ r < s.config.bonus_trigger_rate) →
      r < (if s.free_spins_remaining > 0 then s.config.bonus_win_rate
           else s.config.base_win_rate) →
      r < s.config.jackpot_rate →
        (GameLogic.determine_outcome pickQ pickS s bet).1.toOption.map
            RoundResult.outcome = some .jackpot ∧
        (GameLogic.determine_outcome pickQ pickS s bet).1.toOption.map
            RoundResult.multiplier = some s.config.jackpot_multiplier) ∧
    (¬(s.free_spins_remaining = 0 ∧ r < s.config.bonus_trigger_rate) →
      r < (if s.free_spins_remaining > 0 then s.config.bonus_win_rate
           else s.config.base_win_rate) →
      0 < s.free_spins_remaining →
        (GameLogic.determine_outcome pickQ pickS s bet).2.free_spins_remaining =
          s.free_spins_remaining - 1) ∧
    (¬(s.free_spins_remaining = 0 ∧ r < s.config.bonus_trigger_rate) →
      ¬(r < (if s.free_spins_remaining > 0 then s.config.bonus_win_rate
             else s.config.base_win_rate)) →
      0 < s.free_spins_remaining →
        (GameLogic.determine_outcome pickQ pickS s bet).2.free_spins_remaining =
          s.free_spins_remaining - 1) ∧
    (s.free_spins_remaining = 0 → r < s.config.bonus_trigger_rate →
        (GameLogic.determine_outcome pickQ pickS s bet).2.free_spins_remaining =
          s.config.bonus_free_shots) := by
  obtain ⟨sd, hs⟩ : ∃ sd, s.seeds = some sd := by
    cases hseeds : s.seeds with
    | none =>
        exfalso
        unfold GameLogic.generate_random at hdraw
        rw [hseeds] at hdraw
        simp at hdraw
    | some sd => exact ⟨sd, rfl⟩
  have heval := generate_random_eval s sd _ hs rfl
  rw [heval] at hdraw
  injection hdraw with h1 h2
  injection h1 with hv
  subst hv
  rw [determine_outcome_eval pickQ pickS s sd bet hs]
  simp only []
  refine ⟨?_, ?_, ?_, ?_⟩
  · intro hnt hwin hjack
    rw [if_neg hnt, if_pos hwin]
    have hj := create_win_result_jackpot pickQ pickS
      { s with seeds := some { sd with nonce := sd.nonce + 1 } } bet _ hjack
    simp [Except.toOption, hj.1, hj.2]
  · intro hnt hwin _
    rw [if_neg hnt, if_pos hwin]
    rw [create_win_result_state]
  · intro hnt hwin _
    rw [if_neg hnt, if_neg hwin]
    rw [create_loss_result_state]
  · intro hz htr
    rw [if_pos ⟨hz, htr⟩]
    rfl

theorem C7_witness :
    (GameLogic.determine_outcome (fun l => l.headD 0) (fun l => l.headD "")
        { config := { bet_levels := [1], jackpot_rate := 1/2, bonus_win_rate := 3/5 },
          free_spins_remaining := 3, seeds := some ⟨[97], [], 0⟩ } 1).1.toOption.map
        RoundResult.outcome = some .jackpot ∧
    (GameLogic.determine_outcome (fun l => l.headD 0) (fun l => l.headD "")
        { config := { bet_levels := [1], jackpot_rate := 1/2, bonus_win_rate := 3/5 },
          free_spins_remaining := 3, seeds := some ⟨[97], [], 0⟩ } 1).2.free_spins_remaining
      = 2 := by
  have hdraw : GameLogic.generate_random
      { config := { bet_levels := [1], jackpot_rate := 1/2, bonus_win_rate := 3/5 },
        free_spins_remaining := 3, seeds := some ⟨[97], [], 0⟩ } =
      (.ok ((1678314115 : ℚ) / 4294967296),
       { config := { bet_levels := [1], jackpot_rate := 1/2, bonus_win_rate := 3/5 },
         free_spins_remaining := 3, seeds := some ⟨[97], [], 1⟩ }) := by
    rw [generate_random_eval _ ⟨[97], [], 0⟩ 1678314115 rfl (by decide)]
    norm_num
  have T := C7_jackpot_nested (fun l => l.headD 0) (fun l => l.headD "")
    { config := { bet_levels := [1], jackpot_rate := 1/2, bonus_win_rate := 3/5 },
      free_spins_remaining := 3, seeds := some ⟨[97], [], 0⟩ }
    ((1678314115 : ℚ) / 4294967296)
    { config := { bet_levels := [1], jackpot_rate := 1/2, bonus_win_rate := 3/5 },
      free_spins_remaining := 3, seeds := some ⟨[97], [], 1⟩ } 1 hdraw
  refine ⟨(T.1 ?_ ?_ ?_).1, T.2.1 ?_ ?_ ?_⟩ <;> norm_num

/-! ## `build_math_package.py` — the exact-EV 5000-outcome table builder

Integer quantities are `Int` (Python ints); `%` and `//` on nonnegative
operands with positive divisors agree between Python and `Int.emod` /
`Int.ediv`.  Python's `round` (banker's rounding) is `pyRound`.  The two
`while` loops that clamp `x_3x_201` are modelled with ample fuel (each
iteration moves `x` by 200 toward the `[0, bound]` range, so `|x| + 1`
steps always suffice for the nonnegative bounds used here); the `raise
ValueError` paths and the `assert` statements become `Except.error`. -/

structure Outcome where
  id : Nat
  probability_ppm : Int
  payout_multiplier : Int
deriving DecidableEq

/-- Python 3 `round` to an integer: round-half-to-even. -/
def pyRound (x : ℚ) : Int :=
  let f := ⌊x⌋
  let d := x - f
  if d < 1/2 then f
  else if 1/2 < d then f + 1
  else if f % 2 = 0 then f else f + 1

def clampDownGo (bound : Int) : Nat → Int → Int
  | 0, x => x
  | fuel + 1, x => if bound < x then clampDownGo bound fuel (x - 200) else x

/-- `while x > bound: x -= 200`. -/
def clampDown (bound x : Int) : Int := clampDownGo bound (x.toNat + 1) x

def clampUpGo : Nat → Int → Int
  | 0, x => x
  | fuel + 1, x => if x < 0 then clampUpGo fuel (x + 200) else x

/-- `while x < 0: x += 200`. -/
def clampUp (x : Int) : Int := clampUpGo ((-x).toNat + 1) x

/-- Rows 1..4999 of the table, in the source's deterministic order:
`K0` zeros at `base_ppm`, then the `winners_201_count` winners at
`base_ppm + 1` (the first `x_3x_201` of them at 3x, the rest 2x), then
the remaining winners at `base_ppm` (the first `y_3x_200` at 3x). -/
def buildRows (base_ppm K0 winners_201_count K1 x_3x_201 y_3x_200 : Int) :
    List Outcome :=
  let zeros : List Outcome :=
    (List.range K0.toNat).map fun i => ⟨1 + i, base_ppm, 0⟩
  let winners201 : List Outcome :=
    (List.range winners_201_count.toNat).map fun i =>
      ⟨K0.toNat + 1 + i, base_ppm + 1, if (i : Int) < x_3x_201 then 3 else 2⟩
  let winners200 : List Outcome :=
    (List.range (K1.toNat - winners_201_count.toNat)).map fun j =>
      ⟨K0.toNat + winners_201_count.toNat + 1 + j, base_ppm,
       if (j : Int) < y_3x_200 then 3 else 2⟩
  zeros ++ winners201 ++ winners200

/-- The source's `assert` block: non-jackpot count and ppm sum, then —
after appending the jackpot row — total ppm, exact EV, and majority
loss. -/
def tableChecks (rows : List Outcome)
    (others jackpot_ppm jackpot_multiplier target_total_ev : Int)
    (jackpot_id : Nat) : Except String (List Outcome) :=
  if (rows.length : Int) ≠ others then
    .error "Expected non-jackpot outcome count"
  else if (rows.map (fun o => o.probability_ppm)).sum ≠ 999999 then
    .error "Non-jackpot ppm must sum to 999,999"
  else
    let outcomes := rows ++ [⟨jackpot_id, jackpot_ppm, jackpot_multiplier⟩]
    if (outcomes.map (fun o => o.probability_ppm)).sum ≠ 1000000 then
      .error "Total ppm must be 1,000,000"
    else if (outcomes.map (fun o => o.probability_ppm * o.payout_multiplier)).sum
        ≠ target_total_ev then
      .error "EV ppm*mult mismatch"
    else if ¬(500000 <
        ((outcomes.filter (fun o => o.payout_multiplier == 0)).map
          (fun o => o.probability_ppm)).sum) then
      .error "Loss probability must be a majority"
    else
      .ok outcomes

/-- `build_5000_outcomes(target_rtp)`: 1-ppm jackpot at 5000x, 3000
losses and 1999 winners at 2x/3x splitting 999,999 ppm, with the 3x
counts solved so the weighted multiplier sum hits
`round(target_rtp * 1e6)` exactly. -/
def build_5000_outcomes (target_rtp : ℚ) : Except String (List Outcome) :=
  let total_outcomes : Int := 5000
  let others : Int := total_outcomes - 1
  let jackpot_ppm : Int := 1
  let jackpot_multiplier : Int := 5000
  let base_ppm : Int := 200
  let remainder : Int := 999999 - others * base_ppm
  let K0 : Int := 3000
  let K1 : Int := others - K0
  let extra_ppm_for_winners : Int := min remainder K1
  let winners_ppm_sum : Int := K1 * base_ppm + extra_ppm_for_winners
  let target_total_ev : Int := pyRound (target_rtp * 1000000)
  let jackpot_ev : Int := jackpot_ppm * jackpot_multiplier
  let others_target_ev : Int := target_total_ev - jackpot_ev
  let S3 : Int := others_target_ev - 2 * winners_ppm_sum
  if S3 < 0 ∨ winners_ppm_sum < S3 then
    .error "Invalid configuration for winners' ppm split"
  else
    let winners_201_count : Int := extra_ppm_for_winners
    let x_3x_201 : Int := clampUp (clampDown winners_201_count (S3 % 200))
    let remaining_ppm_for_3x : Int := S3 - 201 * x_3x_201
    if remaining_ppm_for_3x % 200 ≠ 0 then
      .error "No integer solution for 3x allocation"
    else
      let y_3x_200 : Int := remaining_ppm_for_3x / 200
      if y_3x_200 < 0 ∨ (K1 - winners_201_count) < y_3x_200 then
        .error "3x 200ppm allocation exceeds available winners"
      else
        tableChecks
          (buildRows base_ppm K0 winners_201_count K1 x_3x_201 y_3x_200)
          others jackpot_ppm jackpot_multiplier target_total_ev
          (K0.toNat + K1.toNat + 1)

theorem sum_range_map_ite (n xN : Nat) (a b : Int) (h : xN ≤ n) :
    ((List.range n).map (fun i : Nat => if i < xN then a else b)).sum
      = (xN : Int) * a + ((n : Int) - xN) * b := by
  induction n with
  | zero =>
      have hx : xN = 0 := by omega
      subst hx
      simp
  | succ n ih =>
      rw [List.range_succ, List.map_append, List.sum_append]
      by_cases hx : xN ≤ n
      · rw [ih hx]
        have hni : ¬(n < xN) := by omega
        simp only [List.map_cons, List.map_nil, List.sum_cons, List.sum_nil, if_neg hni]
        push_cast
        ring
      · have hxe : xN = n + 1 := by omega
        have hmap : (List.range n).map (fun i : Nat => if i < xN then a else b)
            = (List.range n).map (fun _ => a) := by
          apply List.map_congr_left
          intro i hi
          rw [List.mem_range] at hi
          rw [if_pos (by omega)]
        have hni : n < xN := by omega
        rw [hmap, List.map_const', List.sum_replicate, List.length_range]
        simp only [List.map_cons, List.map_nil, List.sum_cons, List.sum_nil, if_pos hni]
        rw [nsmul_eq_mul, hxe]
        push_cast
        ring

def rows94 : List Outcome := buildRows 200 3000 199 1999 2 673

theorem rows94_eq :
    rows94 =
      (List.range 3000).map (fun i => ⟨1 + i, 200, 0⟩) ++
      ((List.range 199).map (fun i => ⟨3000 + 1 + i, 201, if (i : Int) < 2 then 3 else 2⟩) ++
       (List.range 1800).map (fun j => ⟨3000 + 199 + 1 + j, 200, if (j : Int) < 673 then 3 else 2⟩)) := by
  unfold rows94 buildRows
  have h1 : Int.toNat 3000 = 3000 := rfl
  have h2 : Int.toNat 199 = 199 := rfl
  have h3 : Int.toNat 1999 = 1999 := rfl
  simp only [h1, h2, h3]
  norm_num

theorem ite32_beq_zero (c : Prop) [inst : Decidable c] :
    ((if c then (3 : Int) else 2) == 0) = false := by
  split <;> rfl

theorem rows94_length : rows94.length = 4999 := by
  rw [rows94_eq]
  rw [List.length_append, List.length_append, List.length_map, List.length_map,
    List.length_map, List.length_range, List.length_range, List.length_range]

theorem rows94_ppm : (rows94.map (fun o => o.probability_ppm)).sum = 999999 := by
  rw [rows94_eq]
  simp only [List.map_append, List.sum_append, List.map_map, Function.comp_def]
  rw [List.map_const', List.map_const', List.map_const',
    List.length_range, List.length_range, List.length_range,
    List.sum_replicate, List.sum_replicate, List.sum_replicate]
  norm_num

theorem rows94_ev :
    (rows94.map (fun o => o.probability_ppm * o.payout_multiplier)).sum = 935000 := by
  rw [rows94_eq]
  simp only [List.map_append, List.sum_append, List.map_map, Function.comp_def]
  norm_num [mul_ite]
  rw [sum_range_map_ite 199 2 603 402 (by norm_num),
      sum_range_map_ite 1800 673 600 400 (by norm_num)]
  norm_num

theorem rows94_loss :
    ((rows94.filter (fun o => o.payout_multiplier == 0)).map
      (fun o => o.probability_ppm)).sum = 600000 := by
  rw [rows94_eq]
  rw [List.filter_append, List.filter_append,
    List.filter_map, List.filter_map, List.filter_map]
  have h0 : ((fun o : Outcome => o.payout_multiplier == 0) ∘
      (fun i : Nat => (⟨1 + i, 200, 0⟩ : Outcome))) = fun _ => true :=
    funext fun i => rfl
  have h1 : ((fun o : Outcome => o.payout_multiplier == 0) ∘
      (fun i : Nat => (⟨3000 + 1 + i, 201, if (i : Int) < 2 then 3 else 2⟩ : Outcome))) =
      fun _ => false :=
    funext fun i => ite32_beq_zero _
  have h2 : ((fun o : Outcome => o.payout_multiplier == 0) ∘
      (fun j : Nat => (⟨3000 + 199 + 1 + j, 200, if (j : Int) < 673 then 3 else 2⟩ : Outcome))) =
      fun _ => false :=
    funext fun j => ite32_beq_zero _
  rw [h0, h1, h2, List.filter_true, List.filter_false, List.filter_false]
  simp only [List.map_nil, List.map_append, List.sum_append, List.sum_nil, List.map_map,
    Function.comp_def, List.append_nil]
  rw [List.map_const', List.length_range, List.sum_replicate]
  norm_num

theorem rows94_countP :
    rows94.countP (fun o => o.probability_ppm == 1 && o.payout_multiplier == 5000) = 0 := by
  rw [rows94_eq]
  rw [List.countP_append, List.countP_append,
    List.countP_map, List.countP_map, List.countP_map]
  have h0 : ((fun o : Outcome => o.probability_ppm == 1 && o.payout_multiplier == 5000) ∘
      (fun i : Nat => (⟨1 + i, 200, 0⟩ : Outcome))) = fun _ => false :=
    funext fun i => rfl
  have h1 : ((fun o : Outcome => o.probability_ppm == 1 && o.payout_multiplier == 5000) ∘
      (fun i : Nat => (⟨3000 + 1 + i, 201, if (i : Int) < 2 then 3 else 2⟩ : Outcome))) =
      fun _ => false :=
    funext fun i => rfl
  have h2 : ((fun o : Outcome => o.probability_ppm == 1 && o.payout_multiplier == 5000) ∘
      (fun j : Nat => (⟨3000 + 199 + 1 + j, 200, if (j : Int) < 673 then 3 else 2⟩ : Outcome))) =
      fun _ => false :=
    funext fun j => rfl
  rw [h0, h1, h2]
  simp [List.countP_eq_length_filter, List.filter_false]

theorem build94_eq :
    build_5000_outcomes (94/100) = tableChecks rows94 4999 1 5000 940000 5000 := by
  have h : pyRound ((94/100 : ℚ) * 1000000) = 940000 := by
    have h1 : ((94 : ℚ)/100) * 1000000 = ((940000 : ℤ) : ℚ) := by norm_num
    unfold pyRound
    rw [h1, Int.floor_intCast]
    norm_num
  simp only [build_5000_outcomes, h]
  norm_num [min_def]
  have hc : clampUp (clampDown 199 2) = 2 := by decide
  rw [hc]
  have h1 : (200:Int) ∣ 135002 - 201 * 2 := by decide
  rw [if_pos h1]
  have h2 : ¬((135002 - 201 * 2 : Int) / 200 < 0 ∨ (1800:Int) < (135002 - 201 * 2) / 200) := by
    decide
  rw [if_neg h2]
  have hd : ((135002 - 201 * 2 : Int)) / 200 = 673 := by decide
  rw [hd]
  have he : Int.toNat 3000 + Int.toNat 1999 + 1 = 5000 := by decide
  rw [he]
  rfl

/-- C1: `build_5000_outcomes(0.94)` succeeds with a 5000-row table whose
weights sum to exactly 1,000,000, whose weighted multiplier sum is
exactly 940,000, with exactly one row of weight 1 and multiplier 5000,
and with strictly more than 500,000 ppm on multiplier-0 rows. -/
theorem C1_table_invariants :
    (build_5000_outcomes (94/100)).toOption.map (fun t =>
      (t.length,
       (t.map (fun o => o.probability_ppm)).sum,
       (t.map (fun o => o.probability_ppm * o.payout_multiplier)).sum,
       t.countP (fun o => o.probability_ppm == 1 && o.payout_multiplier == 5000),
       decide (500000 <
         ((t.filter (fun o => o.payout_multiplier == 0)).map
           (fun o => o.probability_ppm)).sum))) =
      some (5000, 1000000, 940000, 1, true) := by
  rw [build94_eq]
  unfold tableChecks
  simp only [List.map_append, List.sum_append, List.filter_append, List.countP_append,
    List.length_append, rows94_length, rows94_ppm, rows94_ev, rows94_loss, rows94_countP,
    Except.toOption]
  norm_num
  refine ⟨by simp [rows94_length], by simp [rows94_ppm], by simp [rows94_ev], ?_,
    by simp [rows94_loss]⟩
  intro a ha h1
  have h := List.countP_eq_zero.mp rows94_countP a ha
  simp [h1] at h
  exact h

/-! ## `normalize_probabilities` (`build_math_package.py`)

The input `Dict[int, float]` is modelled as an association list of
`(multiplier, probability)` pairs with distinct keys; `sorted(...)` on
the dict items is sorting by key. -/

instance : IsTotal (ℤ × ℚ) (fun a b => a.1 ≤ b.1) := ⟨fun a b => le_total a.1 b.1⟩
instance : IsTrans (ℤ × ℚ) (fun a b => a.1 ≤ b.1) := ⟨fun _ _ _ h h' => le_trans h h'⟩

/-- `outcomes[-1].probability_ppm += diff` (no-op on an empty list, which
the guarding `and outcomes` in the source rules out anyway). -/
def adjustLast (l : List Outcome) (diff : Int) : List Outcome :=
  match l.getLast? with
  | none => l
  | some last => l.dropLast ++ [{ last with probability_ppm := last.probability_ppm + diff }]

/-- The comprehension in `normalize_probabilities`: sort the dict items
by key, enumerate from 1, and scale each probability to rounded ppm
clamped at 0 (`total` is the sum of the raw probabilities). -/
def ppmOutcomes (raw : List (Int × ℚ)) : List Outcome :=
  ((List.insertionSort (fun a b => a.1 ≤ b.1) raw).enum).map
    (fun p => ⟨p.1 + 1,
               max (pyRound ((p.2.2 / (raw.map Prod.snd).sum) * 1000000)) 0,
               p.2.1⟩)

/-- `normalize_probabilities(raw)`: scale to ppm with rounding, 1-based
ids in ascending-key order, and absorb the rounding residue into the
last outcome so the ppm values sum to exactly 1,000,000. -/
def normalize_probabilities (raw : List (Int × ℚ)) : List Outcome :=
  let outcomes := ppmOutcomes raw
  let diff := 1000000 - (outcomes.map (fun o => o.probability_ppm)).sum
  if diff ≠ 0 ∧ outcomes ≠ [] then adjustLast outcomes diff else outcomes

theorem exists_concat {α : Type} (l : List α) (h : l ≠ []) : ∃ L b, l = L ++ [b] := by
  induction l using List.reverseRecOn with
  | nil => exact absurd rfl h
  | append_singleton L b _ => exact ⟨L, b, rfl⟩

theorem adjustLast_concat (L : List Outcome) (b : Outcome) (d : Int) :
    adjustLast (L ++ [b]) d =
      L ++ [{ b with probability_ppm := b.probability_ppm + d }] := by
  unfold adjustLast
  rw [List.getLast?_concat, List.dropLast_concat]

theorem adjustLast_ppm_sum (l : List Outcome) (d : Int) (h : l ≠ []) :
    ((adjustLast l d).map (fun o => o.probability_ppm)).sum =
      (l.map (fun o => o.probability_ppm)).sum + d := by
  obtain ⟨L, b, rfl⟩ := exists_concat l h
  rw [adjustLast_concat]
  simp only [List.map_append, List.sum_append, List.map_cons, List.map_nil,
    List.sum_cons, List.sum_nil]
  ring

theorem adjustLast_map_id (l : List Outcome) (d : Int) :
    (adjustLast l d).map (fun o => o.id) = l.map (fun o => o.id) := by
  rcases h : l.getLast? with - | last
  · unfold adjustLast
    rw [h]
  · have hne : l ≠ [] := by
      intro he
      subst he
      simp at h
    obtain ⟨L, b, rfl⟩ := exists_concat l hne
    rw [adjustLast_concat]
    simp

theorem adjustLast_map_mult (l : List Outcome) (d : Int) :
    (adjustLast l d).map (fun o => o.payout_multiplier) =
      l.map (fun o => o.payout_multiplier) := by
  rcases h : l.getLast? with - | last
  · unfold adjustLast
    rw [h]
  · have hne : l ≠ [] := by
      intro he
      subst he
      simp at h
    obtain ⟨L, b, rfl⟩ := exists_concat l hne
    rw [adjustLast_concat]
    simp

theorem ppmOutcomes_length (raw : List (Int × ℚ)) :
    (ppmOutcomes raw).length = raw.length := by
  unfold ppmOutcomes
  rw [List.length_map, List.enum_length,
    (List.perm_insertionSort (fun a b : Int × ℚ => a.1 ≤ b.1) raw).length_eq]

theorem ppmOutcomes_ids (raw : List (Int × ℚ)) :
    (ppmOutcomes raw).map (fun o => o.id) = List.range' 1 raw.length := by
  unfold ppmOutcomes
  rw [List.map_map]
  have h1 : ((fun o : Outcome => o.id) ∘ fun p : Nat × (Int × ℚ) =>
      (⟨p.1 + 1,
        max (pyRound ((p.2.2 / (raw.map Prod.snd).sum) * 1000000)) 0,
        p.2.1⟩ : Outcome)) = fun p => p.1 + 1 := rfl
  rw [h1]
  have h2 : ((List.insertionSort (fun a b : Int × ℚ => a.1 ≤ b.1) raw).enum.map
        Prod.fst).map (fun x => x + 1) =
      (List.insertionSort (fun a b : Int × ℚ => a.1 ≤ b.1) raw).enum.map
        (fun p => p.1 + 1) := by
    rw [List.map_map]
    rfl
  rw [← h2, List.enum_map_fst, List.range'_eq_map_range,
    (List.perm_insertionSort (fun a b : Int × ℚ => a.1 ≤ b.1) raw).length_eq]
  apply List.map_congr_left
  intro i _
  omega

theorem ppmOutcomes_mults (raw : List (Int × ℚ)) :
    (ppmOutcomes raw).map (fun o => o.payout_multiplier) =
      (List.insertionSort (fun a b : Int × ℚ => a.1 ≤ b.1) raw).map Prod.fst := by
  unfold ppmOutcomes
  rw [List.map_map]
  have h1 : ((fun o : Outcome => o.payout_multiplier) ∘ fun p : Nat × (Int × ℚ) =>
      (⟨p.1 + 1,
        max (pyRound ((p.2.2 / (raw.map Prod.snd).sum) * 1000000)) 0,
        p.2.1⟩ : Outcome)) = fun p : Nat × (Int × ℚ) => p.2.1 := rfl
  rw [h1]
  have h2 : ((List.insertionSort (fun a b : Int × ℚ => a.1 ≤ b.1) raw).enum.map
        Prod.snd).map Prod.fst =
      (List.insertionSort (fun a b : Int × ℚ => a.1 ≤ b.1) raw).enum.map
        (fun p => p.2.1) := by
    rw [List.map_map]
    rfl
  rw [← h2, List.enum_map_snd]

/-- C10: for a non-empty probability map with positive total,
`normalize_probabilities` returns outcomes whose ppm values sum to
exactly 1,000,000 (the rounding residue is absorbed by the last
outcome), with 1-based consecutive ids in ascending multiplier order. -/
theorem C10_normalize (raw : List (Int × ℚ))
    (hne : raw ≠ []) (hpos : 0 < (raw.map Prod.snd).sum)
    (hnd : (raw.map Prod.fst).Nodup) :
    ((normalize_probabilities raw).map (fun o => o.probability_ppm)).sum = 1000000 ∧
    (normalize_probabilities raw).map (fun o => o.id) = List.range' 1 raw.length ∧
    ((normalize_probabilities raw).map (fun o => o.payout_multiplier)).Pairwise (· < ·) := by
  have houts_ne : ppmOutcomes raw ≠ [] := by
    intro h
    have := ppmOutcomes_length raw
    rw [h] at this
    exact hne (List.eq_nil_of_length_eq_zero this.symm)
  have hbranch : normalize_probabilities raw =
      adjustLast (ppmOutcomes raw)
        (1000000 - ((ppmOutcomes raw).map (fun o => o.probability_ppm)).sum) ∨
      (normalize_probabilities raw = ppmOutcomes raw ∧
        1000000 - ((ppmOutcomes raw).map (fun o => o.probability_ppm)).sum = 0) := by
    unfold normalize_probabilities
    by_cases hd : 1000000 - ((ppmOutcomes raw).map (fun o => o.probability_ppm)).sum = 0
    · right
      rw [if_neg (fun hc => hc.1 hd)]
      exact ⟨rfl, hd⟩
    · left
      rw [if_pos ⟨hd, houts_ne⟩]
  have hsum : ((normalize_probabilities raw).map (fun o => o.probability_ppm)).sum
      = 1000000 := by
    rcases hbranch with h | ⟨h, hd⟩
    · rw [h, adjustLast_ppm_sum _ _ houts_ne]
      ring
    · rw [h]
      omega
  have hids : (normalize_probabilities raw).map (fun o => o.id) =
      List.range' 1 raw.length := by
    rcases hbranch with h | ⟨h, -⟩
    · rw [h, adjustLast_map_id, ppmOutcomes_ids]
    · rw [h, ppmOutcomes_ids]
  have hmults : (normalize_probabilities raw).map (fun o => o.payout_multiplier) =
      (List.insertionSort (fun a b : Int × ℚ => a.1 ≤ b.1) raw).map Prod.fst := by
    rcases hbranch with h | ⟨h, -⟩
    · rw [h, adjustLast_map_mult, ppmOutcomes_mults]
    · rw [h, ppmOutcomes_mults]
  refine ⟨hsum, hids, ?_⟩
  rw [hmults]
  rw [List.pairwise_map]
  have hsorted : (List.insertionSort (fun a b : Int × ℚ => a.1 ≤ b.1) raw).Pairwise
      (fun a b => a.1 ≤ b.1) :=
    List.sorted_insertionSort _ raw
  have hnodup : ((List.insertionSort (fun a b : Int × ℚ => a.1 ≤ b.1) raw).map
      Prod.fst).Nodup :=
    (((List.perm_insertionSort (fun a b : Int × ℚ => a.1 ≤ b.1) raw).map
      Prod.fst).nodup_iff).mpr hnd
  have hneq : (List.insertionSort (fun a b : Int × ℚ => a.1 ≤ b.1) raw).Pairwise
      (fun a b => a.1 ≠ b.1) := List.pairwise_map.mp hnodup
  exact (hsorted.and hneq).imp (fun h => lt_of_le_of_ne h.1 h.2)

theorem C10_witness :
    ((normalize_probabilities [((0 : Int), (3/5 : ℚ)), (15, 2/5)]).map
        (fun o => o.probability_ppm)).sum = 1000000 ∧
    (normalize_probabilities [((0 : Int), (3/5 : ℚ)), (15, 2/5)]).map
        (fun o => o.id) = List.range' 1 2 ∧
    ((normalize_probabilities [((0 : Int), (3/5 : ℚ)), (15, 2/5)]).map
        (fun o => o.payout_multiplier)).Pairwise (· < ·) :=
  C10_normalize [((0 : Int), (3/5 : ℚ)), (15, 2/5)]
    (List.cons_ne_nil _ _) (by norm_num) (by decide)

/-! ## `simulate_rtp.py` — weighted selection via binary search -/

/-- Default pair for out-of-range indexing (never reached on the
in-bounds indices the loop visits). -/
def dfl : Int × Outcome := (0, ⟨0, 0, 0⟩)

/-- The cumulative-distribution list: running prefix sums paired with
their rows, built exactly as the source's accumulation loop. -/
def cumulativeDist (outcomes : List Outcome) : List (Int × Outcome) :=
  (outcomes.foldl
    (fun acc o => (acc.1 + o.probability_ppm, acc.2 ++ [(acc.1 + o.probability_ppm, o)]))
    ((0 : Int), ([] : List (Int × Outcome)))).2

/-- The `while left <= right` loop of `simulate_spins`, with the
candidate row recorded on `x ≤ cum[mid]` (the source stores the pair
directly; `mid` is inlined).  Each iteration shrinks the interval, so
`length + 1` fuel always suffices. -/
def bsearchGo (dist : List (Int × Outcome)) (x : ℚ) :
    Nat → Int → Int → Option (Int × Outcome) → Option (Int × Outcome)
  | 0, _, _, sel => sel
  | fuel + 1, left, right, sel =>
      if left ≤ right then
        if x ≤ ((dist.getD ((left + right) / 2).toNat dfl).1 : ℚ) then
          bsearchGo dist x fuel left ((left + right) / 2 - 1)
            (some (dist.getD ((left + right) / 2).toNat dfl))
        else
          bsearchGo dist x fuel ((left + right) / 2 + 1) right sel
      else sel

/-- One weighted selection of `simulate_spins`: binary search over the
cumulative distribution, with the source's fallback to the last row
when nothing was selected. -/
def selectOutcome (outcomes : List Outcome) (x : ℚ) : Option Outcome :=
  let dist := cumulativeDist outcomes
  match bsearchGo dist x (dist.length + 1) 0 ((dist.length : Int) - 1) none with
  | some p => some p.2
  | none => dist.getLast?.map (fun p => p.2)

/-- Modelled from the claim's words: return the first row whose prefix
sum is strictly greater than `x`. -/
def claimedSelect (outcomes : List Outcome) (x : ℚ) : Option Outcome :=
  ((cumulativeDist outcomes).find? (fun p => decide (x < (p.1 : ℚ)))).map (fun p => p.2)

/-- Cumulative weight through row `k` (prefix sum including row `k`). -/
def cumWeight (outcomes : List Outcome) (k : Nat) : Int :=
  ((outcomes.take (k + 1)).map (fun o => o.probability_ppm)).sum

theorem cumulativeDist_go (outcomes : List Outcome) :
    ∀ (a : Int) (l0 : List (Int × Outcome)),
      (outcomes.foldl
        (fun acc o => (acc.1 + o.probability_ppm, acc.2 ++ [(acc.1 + o.probability_ppm, o)]))
        (a, l0)).2 =
      l0 ++ (List.range outcomes.length).map
        (fun k => (a + cumWeight outcomes k, outcomes.getD k ⟨0, 0, 0⟩)) := by
  induction outcomes with
  | nil =>
      intro a l0
      simp
  | cons o os ih =>
      intro a l0
      rw [List.foldl_cons, ih, List.length_cons, List.range_succ_eq_map]
      simp only [List.map_cons, List.map_map, List.append_assoc, List.singleton_append]
      congr 1
      congr 1
      · unfold cumWeight
        simp
      · apply List.map_congr_left
        intro k _
        simp only [Function.comp_apply]
        unfold cumWeight
        rw [List.take_succ_cons, List.map_cons, List.sum_cons]
        simp only [List.getD_cons_succ, Prod.mk.injEq]
        exact ⟨by ring, trivial⟩

theorem cumulativeDist_eq (outcomes : List Outcome) :
    cumulativeDist outcomes =
      (List.range outcomes.length).map
        (fun k => (cumWeight outcomes k, outcomes.getD k ⟨0, 0, 0⟩)) := by
  unfold cumulativeDist
  rw [cumulativeDist_go]
  simp

theorem cumulativeDist_length (outcomes : List Outcome) :
    (cumulativeDist outcomes).length = outcomes.length := by
  rw [cumulativeDist_eq, List.length_map, List.length_range]

theorem cumulativeDist_getD (outcomes : List Outcome) (k : Nat)
    (hk : k < outcomes.length) :
    (cumulativeDist outcomes).getD k dfl =
      (cumWeight outcomes k, outcomes.getD k ⟨0, 0, 0⟩) := by
  rw [cumulativeDist_eq]
  rw [List.getD_eq_getElem?_getD, List.getElem?_map]
  rw [List.getElem?_range hk]
  rfl

theorem cumWeight_step (outcomes : List Outcome)
    (hw : ∀ o ∈ outcomes, 0 ≤ o.probability_ppm) (k : Nat) :
    cumWeight outcomes k ≤ cumWeight outcomes (k + 1) := by
  unfold cumWeight
  rw [List.take_succ (n := k + 1), List.map_append, List.sum_append]
  have h : 0 ≤ ((outcomes[k + 1]?.toList).map (fun o => o.probability_ppm)).sum := by
    cases hh : outcomes[k + 1]? with
    | none => simp
    | some o =>
        simp only [Option.toList_some, List.map_cons, List.map_nil, List.sum_cons,
          List.sum_nil, add_zero]
        exact hw o (List.getElem?_mem hh)
  omega

theorem cumWeight_mono (outcomes : List Outcome)
    (hw : ∀ o ∈ outcomes, 0 ≤ o.probability_ppm) (j k : Nat) (hjk : j ≤ k) :
    cumWeight outcomes j ≤ cumWeight outcomes k := by
  induction k, hjk using Nat.le_induction with
  | base => exact le_refl _
  | succ n _ ih => exact le_trans ih (cumWeight_step outcomes hw n)

/-- What the terminated loop's `sel` holds: the row at the least index
whose cumulative value is `≥ x`, assuming the loop invariant and that
such an index `i₀` exists. -/
theorem bsearch_exit (dist : List (Int × Outcome)) (x : ℚ)
    (i₀ : Nat) (hi₀n : i₀ < dist.length)
    (hi₀sat : x ≤ ((dist.getD i₀ dfl).1 : ℚ))
    (hi₀least : ∀ k < i₀, ¬ x ≤ ((dist.getD k dfl).1 : ℚ))
    (left right : Int) (sel : Option (Int × Outcome))
    (hlr : ¬ left ≤ right)
    (hlow : ∀ k : Nat, (k : Int) < left → ¬ x ≤ ((dist.getD k dfl).1 : ℚ))
    (hsel : (sel = none ∧ ∀ k : Nat, right < (k : Int) → k < dist.length →
        ¬ x ≤ ((dist.getD k dfl).1 : ℚ)) ∨
      (∃ s : Nat, sel = some (dist.getD s dfl) ∧ right < (s : Int) ∧
        s < dist.length ∧ x ≤ ((dist.getD s dfl).1 : ℚ) ∧
        ∀ k : Nat, right < (k : Int) → k < s →
          ¬ x ≤ ((dist.getD k dfl).1 : ℚ))) :
    sel = some (dist.getD i₀ dfl) := by
  rcases hsel with ⟨hnone, hcov⟩ | ⟨s, hselEq, hs1, hs2, hs3, hs4⟩
  · exfalso
    by_cases hc : (i₀ : Int) < left
    · exact hlow i₀ hc hi₀sat
    · exact hcov i₀ (by omega) hi₀n hi₀sat
  · have hsi : s = i₀ := by
      by_contra hne
      rcases Nat.lt_or_ge s i₀ with hlt | hge
      · exact hi₀least s hlt hs3
      · have hlt' : i₀ < s := by omega
        by_cases hc : (i₀ : Int) < left
        · exact hlow i₀ hc hi₀sat
        · exact hs4 i₀ (by omega) hlt' hi₀sat
    rw [hselEq, hsi]

/-- The binary-search loop returns the row at the least index whose
cumulative weight is `≥ x`, provided the cumulative values are monotone
and such an index exists. -/
theorem bsearchGo_finds (dist : List (Int × Outcome)) (x : ℚ)
    (hmono : ∀ j k : Nat, j ≤ k → k < dist.length →
      (dist.getD j dfl).1 ≤ (dist.getD k dfl).1)
    (i₀ : Nat) (hi₀n : i₀ < dist.length)
    (hi₀sat : x ≤ ((dist.getD i₀ dfl).1 : ℚ))
    (hi₀least : ∀ k < i₀, ¬ x ≤ ((dist.getD k dfl).1 : ℚ)) :
    ∀ (fuel : Nat) (left right : Int) (sel : Option (Int × Outcome)),
      0 ≤ left → right < dist.length → right + 1 - left ≤ (fuel : Int) →
      (∀ k : Nat, (k : Int) < left → ¬ x ≤ ((dist.getD k dfl).1 : ℚ)) →
      ((sel = none ∧ ∀ k : Nat, right < (k : Int) → k < dist.length →
          ¬ x ≤ ((dist.getD k dfl).1 : ℚ)) ∨
       (∃ s : Nat, sel = some (dist.getD s dfl) ∧ right < (s : Int) ∧
          s < dist.length ∧ x ≤ ((dist.getD s dfl).1 : ℚ) ∧
          ∀ k : Nat, right < (k : Int) → k < s →
            ¬ x ≤ ((dist.getD k dfl).1 : ℚ))) →
      bsearchGo dist x fuel left right sel = some (dist.getD i₀ dfl) := by
  intro fuel
  induction fuel with
  | zero =>
      intro left right sel h0 hrn hfuel hlow hsel
      rw [bsearchGo]
      exact bsearch_exit dist x i₀ hi₀n hi₀sat hi₀least left right sel
        (by intro h; omega) hlow hsel
  | succ fuel ih =>
      intro left right sel h0 hrn hfuel hlow hsel
      rw [bsearchGo]
      by_cases hlr : left ≤ right
      · rw [if_pos hlr]
        obtain ⟨m, hm⟩ : ∃ m, (left + right) / 2 = m := ⟨_, rfl⟩
        rw [hm]
        have hmid1 : left ≤ m := by rw [← hm]; omega
        have hmid2 : m ≤ right := by rw [← hm]; omega
        have hmid0 : (0 : Int) ≤ m := le_trans h0 hmid1
        have hmidn : ((m.toNat : Int)) = m := Int.toNat_of_nonneg hmid0
        by_cases hx : x ≤ ((dist.getD m.toNat dfl).1 : ℚ)
        · rw [if_pos hx]
          refine ih left (m - 1) _ h0 ?_ ?_ hlow ?_
          · omega
          · omega
          · right
            refine ⟨m.toNat, rfl, ?_, ?_, hx, ?_⟩
            · omega
            · omega
            · intro k hk1 hk2
              exfalso
              omega
        · rw [if_neg hx]
          refine ih (m + 1) right sel ?_ hrn ?_ ?_ hsel
          · omega
          · omega
          intro k hk
          by_cases hkl : (k : Int) < left
          · exact hlow k hkl
          · intro hsat
            apply hx
            have hkm : k ≤ m.toNat := by omega
            have hmle : (dist.getD k dfl).1 ≤ (dist.getD m.toNat dfl).1 :=
              hmono k m.toNat hkm (by omega)
            exact le_trans hsat (by exact_mod_cast hmle)
      · rw [if_neg hlr]
        exact bsearch_exit dist x i₀ hi₀n hi₀sat hi₀least left right sel hlr hlow hsel

/-- C9 (amended): for a table with nonnegative weights, positive total,
and a draw `x` in `[0, U)`, the binary search selects the FIRST row
whose cumulative weight is `≥ x` — i.e. rows own the half-open
intervals `(prev_sum, prev_sum + weight]`, a draw of exactly 0 (or any
boundary value) going to the earlier row. -/
theorem C9_binary_search (outcomes : List Outcome) (x : ℚ)
    (hw : ∀ o ∈ outcomes, 0 ≤ o.probability_ppm)
    (hx0 : 0 ≤ x)
    (hxU : x < (((outcomes.map (fun o => o.probability_ppm)).sum : Int) : ℚ)) :
    ∃ i : Nat, i < outcomes.length ∧
      selectOutcome outcomes x = some (outcomes.getD i ⟨0, 0, 0⟩) ∧
      x ≤ ((cumWeight outcomes i : Int) : ℚ) ∧
      ∀ k < i, ((cumWeight outcomes k : Int) : ℚ) < x := by
  have hnil : outcomes ≠ [] := by
    intro h
    rw [h] at hxU
    simp at hxU
    exact absurd (lt_of_le_of_lt hx0 hxU) (lt_irrefl 0)
  have hn : 0 < outcomes.length := List.length_pos.mpr hnil
  have htot : cumWeight outcomes (outcomes.length - 1) =
      (outcomes.map (fun o => o.probability_ppm)).sum := by
    unfold cumWeight
    rw [Nat.sub_add_cancel hn, List.take_length]
  have hsatlast : x ≤ ((cumWeight outcomes (outcomes.length - 1) : Int) : ℚ) := by
    rw [htot]
    exact le_of_lt hxU
  have hex : ∃ k, x ≤ ((cumWeight outcomes k : Int) : ℚ) :=
    ⟨outcomes.length - 1, hsatlast⟩
  let i₀ := Nat.find hex
  have hi₀sat : x ≤ ((cumWeight outcomes i₀ : Int) : ℚ) := Nat.find_spec hex
  have hi₀least : ∀ k < i₀, ¬ x ≤ ((cumWeight outcomes k : Int) : ℚ) :=
    fun k hk => Nat.find_min hex hk
  have hi₀n : i₀ < outcomes.length := by
    have := Nat.find_min' hex hsatlast
    omega
  have hgetD : ∀ k, k < outcomes.length →
      (cumulativeDist outcomes).getD k dfl =
        (cumWeight outcomes k, outcomes.getD k ⟨0, 0, 0⟩) :=
    fun k hk => cumulativeDist_getD outcomes k hk
  have hlen : (cumulativeDist outcomes).length = outcomes.length :=
    cumulativeDist_length outcomes
  have hmono : ∀ j k : Nat, j ≤ k → k < (cumulativeDist outcomes).length →
      ((cumulativeDist outcomes).getD j dfl).1 ≤
        ((cumulativeDist outcomes).getD k dfl).1 := by
    intro j k hjk hk
    rw [hlen] at hk
    rw [hgetD j (lt_of_le_of_lt hjk hk), hgetD k hk]
    exact cumWeight_mono outcomes hw j k hjk
  have hrun : bsearchGo (cumulativeDist outcomes) x
      ((cumulativeDist outcomes).length + 1) 0
      (((cumulativeDist outcomes).length : Int) - 1) none =
      some ((cumulativeDist outcomes).getD i₀ dfl) := by
    apply bsearchGo_finds (cumulativeDist outcomes) x hmono i₀
      (by rw [hlen]; exact hi₀n)
      (by rw [hgetD i₀ hi₀n]; exact hi₀sat)
      (by
        intro k hk
        rw [hgetD k (lt_trans hk hi₀n)]
        exact hi₀least k hk)
      ((cumulativeDist outcomes).length + 1) 0
      (((cumulativeDist outcomes).length : Int) - 1) none
      le_rfl (by omega) (by push_cast; omega)
      (by intro k hk; exfalso; omega)
    left
    refine ⟨rfl, ?_⟩
    intro k hk1 hk2
    exfalso
    omega
  refine ⟨i₀, hi₀n, ?_, hi₀sat, ?_⟩
  · unfold selectOutcome
    simp only []
    rw [hrun, hgetD i₀ hi₀n]
  · intro k hk
    have := hi₀least k hk
    exact lt_of_not_le this

/-- C9 is false as stated: the loop tests `random_value <= cum[mid]`,
so a draw equal to a prefix sum selects the earlier row, not the first
row with prefix sum strictly greater.  With weights `[1, 1]` and
`x = 1`, the code returns row 1 while the claimed rule picks row 2. -/
theorem C9_counterexample :
    selectOutcome [⟨1, 1, 0⟩, ⟨2, 1, 5⟩] 1 = some ⟨1, 1, 0⟩ ∧
    claimedSelect [⟨1, 1, 0⟩, ⟨2, 1, 5⟩] 1 = some ⟨2, 1, 5⟩ ∧
    (⟨1, 1, 0⟩ : Outcome) ≠ ⟨2, 1, 5⟩ := by decide

theorem C9_witness :
    ∃ i : Nat, i < ([⟨1, 2, 0⟩, ⟨2, 3, 10⟩] : List Outcome).length ∧
      selectOutcome [⟨1, 2, 0⟩, ⟨2, 3, 10⟩] 3 =
        some (([⟨1, 2, 0⟩, ⟨2, 3, 10⟩] : List Outcome).getD i ⟨0, 0, 0⟩) ∧
      (3 : ℚ) ≤ ((cumWeight [⟨1, 2, 0⟩, ⟨2, 3, 10⟩] i : Int) : ℚ) ∧
      ∀ k < i, ((cumWeight [⟨1, 2, 0⟩, ⟨2, 3, 10⟩] k : Int) : ℚ) < 3 :=
  C9_binary_search [⟨1, 2, 0⟩, ⟨2, 3, 10⟩] 3 (by decide) (by norm_num)
    (by norm_num)
